import Mathlib

/-!
Shallow embedding of the arktype repository excerpt:
  - `.github/workflows/publish.yml` (CI workflow)
  - `ark/extension/package.json` (VSCode extension manifest)
  - `ark/docs/app/(home)/layout.tsx` (home layout component plus the
    embedded Configuration documentation content)
  - an unnamed MDX documentation file (Scopes / Match docs)

Each definition transcribes the corresponding source artifact; derived
functions model the platform semantics the claims rely on (job ordering
from `needs`, effective permissions, the ErrorLens regex rewrite).
-/

namespace Ark

/-! ## CI workflow `.github/workflows/publish.yml` -/

/-- Value of an environment variable binding in a workflow step:
either a reference to a repository secret or a literal string. -/
inductive EnvValue where
  | secret (name : String)
  | literal (value : String)
deriving DecidableEq

/-- One `env:` binding of a workflow step. -/
structure EnvBinding where
  var : String
  value : EnvValue
deriving DecidableEq

/-- One step of a workflow job. -/
structure Step where
  stepName : String
  usesAction : Option String
  runs : Option String
  withArgs : List (String × String)
  env : List EnvBinding
deriving DecidableEq

/-- Permission level granted to the workflow token. The workflow file
only uses `write-all`. -/
inductive PermissionLevel where
  | writeAll
deriving DecidableEq

/-- A workflow job: its `needs` dependencies, optional job-level
`permissions` override, optional deployment environment, and steps. -/
structure Job where
  jobName : String
  needs : List String
  permissions : Option PermissionLevel
  environmentName : Option String
  steps : List Step
deriving DecidableEq

/-- A workflow trigger from the `on:` block. -/
inductive Trigger where
  | push (branches : List String) (tags : List String)
  | workflowDispatch
deriving DecidableEq

/-- A GitHub Actions workflow. -/
structure Workflow where
  workflowName : String
  triggers : List Trigger
  permissions : Option PermissionLevel
  jobs : List Job
deriving DecidableEq

/-- Transcription of `.github/workflows/publish.yml`. -/
def publishWorkflow : Workflow where
  workflowName := "publish"
  triggers := [Trigger.push ["main"] [], Trigger.workflowDispatch]
  permissions := some PermissionLevel.writeAll
  jobs := [
    { jobName := "update-gh-pages"
      needs := []
      permissions := none
      environmentName := none
      steps := [
        { stepName := "Checkout repo"
          usesAction := some "actions/checkout@v4"
          runs := none
          withArgs := [("fetch-depth", "0")]
          env := [] },
        { stepName := "Setup repo"
          usesAction := some "./.github/actions/setup"
          runs := none
          withArgs := []
          env := [] },
        { stepName := "Build docs"
          usesAction := none
          runs := some "pnpm buildDocs"
          withArgs := []
          env := [
            { var := "NEXT_PUBLIC_POSTHOG_KEY"
              value := EnvValue.literal "phc_vKr7tmA1TyRlKm9zm5TWVmrTWAybJ2fCk66FtZG49Om" },
            { var := "NEXT_PUBLIC_POSTHOG_HOST"
              value := EnvValue.literal "https://us.i.posthog.com" },
            { var := "ORAMA_PRIVATE_API_KEY"
              value := EnvValue.secret "ORAMA_PRIVATE_API_KEY" }] },
        { stepName := "Upload artifact"
          usesAction := some "actions/upload-pages-artifact@v3"
          runs := none
          withArgs := [("path", "./ark/docs/out")]
          env := [] }] },
    { jobName := "deploy"
      needs := ["update-gh-pages"]
      permissions := none
      environmentName := some "github-pages"
      steps := [
        { stepName := "Deploy to GitHub Pages"
          usesAction := some "actions/deploy-pages@v4"
          runs := none
          withArgs := []
          env := [] }] },
    { jobName := "release"
      needs := []
      permissions := none
      environmentName := none
      steps := [
        { stepName := "Checkout repo"
          usesAction := some "actions/checkout@v4"
          runs := none
          withArgs := [("fetch-depth", "0")]
          env := [] },
        { stepName := "Setup repo"
          usesAction := some "./.github/actions/setup"
          runs := none
          withArgs := []
          env := [] },
        { stepName := "Create and publish versions"
          usesAction := none
          runs := some "pnpm ci:publish"
          withArgs := []
          env := [
            { var := "GITHUB_TOKEN", value := EnvValue.secret "GITHUB_TOKEN" },
            { var := "NPM_TOKEN", value := EnvValue.secret "NPM_TOKEN" },
            { var := "NODE_AUTH_TOKEN", value := EnvValue.secret "NPM_TOKEN" }] }] }]

/-- All `env:` bindings appearing in any step of any job of a workflow. -/
def Workflow.allEnvBindings (w : Workflow) : List EnvBinding :=
  (w.jobs.map fun j => (j.steps.map Step.env).flatten).flatten

/-- Names of the repository secrets a workflow references. -/
def Workflow.secretsReferenced (w : Workflow) : List String :=
  w.allEnvBindings.filterMap fun b =>
    match b.value with
    | EnvValue.secret s => some s
    | EnvValue.literal _ => none

/-- Names of the environment variables a workflow binds to secrets. -/
def Workflow.secretEnvVars (w : Workflow) : List String :=
  w.allEnvBindings.filterMap fun b =>
    match b.value with
    | EnvValue.secret _ => some b.var
    | EnvValue.literal _ => none

/-- Names of all environment variables set in any step of a workflow. -/
def Workflow.envVarsSet (w : Workflow) : List String :=
  w.allEnvBindings.map EnvBinding.var

/-- GitHub Actions semantics: a job's effective permissions are its own
`permissions` block if present, otherwise the workflow-level setting. -/
def Job.effectivePermissions (w : Workflow) (j : Job) : Option PermissionLevel :=
  match j.permissions with
  | some p => some p
  | none => w.permissions

/-- The `needs` list of the named job of the publish workflow. -/
def needsOf (j : String) : List String :=
  ((publishWorkflow.jobs.find? fun jb => jb.jobName = j).map Job.needs).getD []

/-- GitHub Actions scheduling semantics, linearized: given the set of
already-completed jobs `done`, a sequence of job starts is valid when
each job's `needs` are all completed before it starts. -/
def validFrom (done : List String) : List String → Bool
  | [] => true
  | j :: rest => (needsOf j).all (fun d => decide (d ∈ done)) && validFrom (j :: done) rest

/-- A complete start order for jobs is valid when every job's `needs`
precede it. -/
def validOrder (order : List String) : Bool := validFrom [] order

/-! ## Extension manifest `ark/extension/package.json` -/

/-- One entry of `contributes.grammars`. -/
structure Grammar where
  injectTo : List String
  scopeName : String
  path : String
deriving DecidableEq

/-- Transcription of `contributes.grammars` of the arkdark manifest. -/
def arkdarkGrammars : List Grammar :=
  [{ injectTo := [
      "source.ts",
      "source.tsx",
      "source.js",
      "source.jsx",
      "source.mdx",
      "source.svelte",
      "source.vue",
      "source.astro",
      "text.html.markdown"]
     scopeName := "source.arktype.injection.ts"
     path := "injected.tmLanguage.json" }]

/-- One `errorLens.replace` rewrite rule: a regex matcher and the
replacement message. -/
structure ReplaceRule where
  matcher : String
  message : String
deriving DecidableEq

/-- Transcription of `configurationDefaults."errorLens.replace"` of the
arkdark manifest, in manifest order. (JSON `\n` is a literal newline
and `\x27` denotes the apostrophe character, as in the JSON source.) -/
def errorLensReplace : List ReplaceRule :=
  [{ matcher := ".*\x27ErrorType<(.*)>\x27.*$", message := "$1" },
   { matcher := ".*\x27\"(.*\u200A)\"\x27\\.$", message := "$1" },
   { matcher := "^(?:Type|Argument of type) \x27\"(.*)\"\x27 is not assignable to (?:parameter of )?type \x27(\"\\1.*\")\x27\\.", message := "$2" },
   { matcher := "[^]*\n([^\n]*)$", message := "$1" }]

/-- Transcription of `extensionDependencies` of the arkdark manifest. -/
def extensionDependencies : List String := ["usernamehw.errorlens"]

/-- Transcription of the `scripts` map of the arkdark manifest. -/
def arkdarkScripts : List (String × String) :=
  [("publishExtension", "pnpm packageExtension && pnpm publishVsce && pnpm publishOvsx"),
   ("packageExtension", "vsce package --out arkdark.vsix"),
   ("publishVsce", "vsce publish -i arkdark.vsix"),
   ("publishOvsx", "ovsx publish -i arkdark.vsix")]

/-- Split a character list at every occurrence of `sep` (shell-style
word splitting when `sep` is a space). -/
def splitOnChar (sep : Char) : List Char → List (List Char)
  | [] => [[]]
  | c :: rest =>
    match splitOnChar sep rest with
    | [] => if c = sep then [[], []] else [[c]]
    | w :: ws => if c = sep then [] :: w :: ws else (c :: w) :: ws

/-- The whitespace-separated words of a script string. -/
def words (s : String) : List String :=
  (splitOnChar ' ' s.data).map fun l => String.mk l

/-- Split a word list at every occurrence of the token `sep`
(used with `sep = "&&"` for shell command sequencing). -/
def splitOnTok (sep : String) : List String → List (List String)
  | [] => [[]]
  | w :: rest =>
    match splitOnTok sep rest with
    | [] => if w = sep then [[], []] else [[w]]
    | g :: gs => if w = sep then [] :: g :: gs else (w :: g) :: gs

/-- The sequence of shell commands a script runs, split on `&&`. -/
def commandSeq (script : String) : List (List String) :=
  splitOnTok "&&" (words script)

/-- The word following the first occurrence of the flag `flag`
(e.g. the value of `--out` or `-i`). -/
def argAfter (flag : String) : List String → Option String
  | [] => none
  | [_] => none
  | x :: y :: rest => if x = flag then some y else argAfter flag (y :: rest)

/-! ## ErrorLens rule 4: the regex `[^]*` `\n` `([^\n]*)` `$`

Shallow embedding of the fourth `errorLens.replace` matcher with
JavaScript regex semantics (greedy stars, backtracking, `$` = end of
input, `[^]` = any character including newline), matching from the
start of the input. The capturing group is returned on success. -/

/-- Matches `([^\n]*)$` at the current position and returns the capture:
the greedy star consumes non-newline characters, and `$` requires the
end of the input. -/
def capStarEnd : List Char → Option (List Char)
  | [] => some []
  | c :: rest =>
    if c = '\n' then none
    else (capStarEnd rest).map fun g => c :: g

/-- Matches `\n([^\n]*)$` at the current position and returns the
capture. -/
def afterStar : List Char → Option (List Char)
  | [] => none
  | c :: rest => if c = '\n' then capStarEnd rest else none

/-- Matches the full pattern `[^]*\n([^\n]*)$` at the start of the
input, greedily: the leading star prefers to consume another character
(recursing on the tail) and only on failure ends and tries
`\n([^\n]*)$` at the current position. Returns the capture group. -/
def rule4Capture : List Char → Option (List Char)
  | [] => afterStar []
  | c :: rest =>
    match rule4Capture rest with
    | some g => some g
    | none => afterStar (c :: rest)

/-! ## Documentation content: the Configuration doc -/

/-- A heading-delimited section of the Configuration documentation:
its title, heading level (3 for `###`, 4 for `####`), and the list of
keys passed in each global `configure(\x7b...\x7d)` usage example the
section contains, in order. -/
structure DocSection where
  title : String
  headingLevel : Nat
  configureKeys : List (List String)
deriving DecidableEq

/-- Transcription of the sections of the Configuration documentation
content embedded in `ark/docs/app/(home)/layout.tsx`, in order. -/
def configurationDocSections : List DocSection :=
  [{ title := "Levels", headingLevel := 3, configureKeys := [["numberAllowsNaN"]] },
   { title := "Errors", headingLevel := 3, configureKeys := [] },
   { title := "By Code", headingLevel := 4, configureKeys := [] },
   { title := "ArkErrors", headingLevel := 4, configureKeys := [] },
   { title := "Keywords", headingLevel := 3, configureKeys := [["keywords"]] },
   { title := "Clone", headingLevel := 3, configureKeys := [["clone"], ["clone"]] },
   { title := "onUndeclaredKey", headingLevel := 3, configureKeys := [["onUndeclaredKey"]] },
   { title := "exactOptionalPropertyTypes", headingLevel := 3,
     configureKeys := [["exactOptionalPropertyTypes"]] },
   { title := "jitless", headingLevel := 3, configureKeys := [["jitless"]] },
   { title := "onFail", headingLevel := 3, configureKeys := [["onFail"]] },
   { title := "metadata", headingLevel := 3, configureKeys := [] },
   { title := "toJsonSchema", headingLevel := 3, configureKeys := [] },
   { title := "Fallback Codes", headingLevel := 3, configureKeys := [] },
   { title := "prototypes", headingLevel := 3, configureKeys := [] }]

/-- One documented behavior of `onUndeclaredKey`, with whether the doc
marks it as the default. -/
structure UndeclaredKeyBehavior where
  value : String
  isDefault : Bool
  summary : String
deriving DecidableEq

/-- Transcription of the bullet list of the `onUndeclaredKey` section. -/
def onUndeclaredKeyBehaviors : List UndeclaredKeyBehavior :=
  [{ value := "ignore", isDefault := true,
     summary := "Allow undeclared keys on input, preserve them on output" },
   { value := "delete", isDefault := false,
     summary := "Allow undeclared keys on input, delete them before returning output" },
   { value := "reject", isDefault := false,
     summary := "Reject input with undeclared keys" }]

/-- Whether the Configuration doc has a section titled `sectionTitle`
containing a `configure` usage example that passes the key `key`. -/
def hasOwnConfigureSection (key sectionTitle : String) : Bool :=
  configurationDocSections.any fun s =>
    s.title == sectionTitle && s.configureKeys.any fun ks => ks.contains key

/-- How many sections of the Configuration doc carry the given title. -/
def sectionCount (sectionTitle : String) : Nat :=
  (configurationDocSections.filter fun s => s.title == sectionTitle).length

/-! ## Home layout component `ark/docs/app/(home)/layout.tsx` -/

/-- A rendered element; the layout component only constructs the
`FloatYourBoat` element. -/
inductive Elem where
  | floatYourBoat (kind : String)
deriving DecidableEq

/-- The `nav` options object: its `children` slot and its remaining
fields, kept abstract (they come from `layout.config.tsx`, outside this
excerpt). -/
structure NavProps (χ ρ : Type) where
  children : χ
  rest : ρ
deriving DecidableEq

/-- The `baseOptions` object spread into `HomeLayout`: its `nav` field
and its remaining fields, kept abstract. -/
structure BaseOptions (χ ρ σ : Type) where
  nav : NavProps χ ρ
  rest : σ
deriving DecidableEq

/-- The props of the `HomeLayout` element the component returns. -/
structure HomeLayoutProps (χ ρ σ κ : Type) where
  nav : NavProps χ ρ
  rest : σ
  children : κ
deriving DecidableEq

/-- The default export of `ark/docs/app/(home)/layout.tsx`: spreads
`baseOptions`, overrides `nav` with `baseOptions.nav` whose `children`
is replaced by `<FloatYourBoat kind="header" />`, and passes the given
`children` through. -/
def homeLayoutDefault {χ ρ σ κ : Type} (baseOptions : BaseOptions χ ρ σ)
    (children : κ) : HomeLayoutProps Elem ρ σ κ :=
  { nav := { children := Elem.floatYourBoat "header", rest := baseOptions.nav.rest }
    rest := baseOptions.rest
    children := children }

/-! ## Source inventory -/

/-- The character of a source artifact of this excerpt. -/
inductive ArtifactKind where
  | executableModule
  | declarativeManifest
  | declarativeWorkflow
  | documentationContent
deriving DecidableEq

/-- A source artifact of the excerpt. -/
structure SourceArtifact where
  path : String
  kind : ArtifactKind
deriving DecidableEq

/-- The provided source artifacts and their character. The layout file
is the only one containing executable code (its embedded Configuration
doc text is content, not code); the unnamed MDX file holds the Scopes
and Match documentation. -/
def sourceArtifacts : List SourceArtifact :=
  [{ path := ".github/workflows/publish.yml", kind := ArtifactKind.declarativeWorkflow },
   { path := "ark/extension/package.json", kind := ArtifactKind.declarativeManifest },
   { path := "ark/docs/app/(home)/layout.tsx", kind := ArtifactKind.executableModule },
   { path := "ark/docs MDX content (Scopes / Match)", kind := ArtifactKind.documentationContent }]

/-! ## Helper lemmas -/

/-- The submatch `([^\n]*)$` succeeds exactly on newline-free suffixes,
capturing the whole suffix. -/
theorem capStarEnd_eq (l : List Char) :
    capStarEnd l = if '\n' ∈ l then none else some l := by
  induction l with
  | nil => simp [capStarEnd]
  | cons c rest ih =>
    by_cases hc : c = '\n'
    · subst hc; simp [capStarEnd]
    · have hc2 : ¬ ('\n' = c) := fun e => hc e.symm
      by_cases hr : '\n' ∈ rest <;>
        simp [capStarEnd, ih, hc, hc2, hr, List.mem_cons]

/-- On input without a newline, the rule-4 regex does not match. -/
theorem rule4Capture_eq_none (l : List Char) (h : '\n' ∉ l) :
    rule4Capture l = none := by
  induction l with
  | nil => rfl
  | cons c rest ih =>
    have hc : ¬ c = '\n' := by
      intro e
      exact h (by rw [e]; exact List.mem_cons_self '\n' rest)
    have hr : '\n' ∉ rest := fun m => h (List.mem_cons_of_mem c m)
    simp [rule4Capture, ih hr, afterStar, hc]

/-- On input containing a newline, the rule-4 regex matches and the
capturing group is the newline-free suffix following the last newline,
i.e. the last line of the input. -/
theorem rule4Capture_lastLine (l : List Char) (h : '\n' ∈ l) :
    ∃ g pre, rule4Capture l = some g ∧ l = pre ++ '\n' :: g ∧ '\n' ∉ g := by
  induction l with
  | nil => exact absurd h (List.not_mem_nil '\n')
  | cons c rest ih =>
    by_cases hr : '\n' ∈ rest
    · obtain ⟨g, pre, hcap, heq, hg⟩ := ih hr
      refine ⟨g, c :: pre, ?_, ?_, hg⟩
      · simp [rule4Capture, hcap]
      · simp [heq]
    · have hc : c = '\n' := by
        rcases List.mem_cons.mp h with h1 | h2
        · exact h1.symm
        · exact absurd h2 hr
      refine ⟨rest, [], ?_, by simp [hc], hr⟩
      simp [rule4Capture, rule4Capture_eq_none rest hr, afterStar, hc,
        capStarEnd_eq, hr]

/-- In any valid start order, a scheduled `deploy` is preceded by
`update-gh-pages`, either among the already-completed jobs or earlier in
the order. -/
theorem validFrom_deploy (pre : List String) :
    ∀ done post, validFrom done (pre ++ "deploy" :: post) = true →
      "update-gh-pages" ∈ done ∨ "update-gh-pages" ∈ pre := by
  induction pre with
  | nil =>
    intro done post h
    simp only [List.nil_append, validFrom, Bool.and_eq_true] at h
    have hneeds : needsOf "deploy" = ["update-gh-pages"] := by decide
    have hall := h.1
    rw [hneeds] at hall
    simp only [List.all_cons, List.all_nil, Bool.and_true] at hall
    exact Or.inl (by simpa using hall)
  | cons p pre ih =>
    intro done post h
    simp only [List.cons_append, validFrom, Bool.and_eq_true] at h
    rcases ih (p :: done) post h.2 with hd | hp
    · rcases List.mem_cons.mp hd with h1 | h2
      · exact Or.inr (List.mem_cons.mpr (Or.inl h1))
      · exact Or.inl h2
    · exact Or.inr (List.mem_cons_of_mem p hp)

/-! ## Claim theorems -/

/-- C1: the manifest contributes exactly one grammar; its `injectTo`
list contains a scope iff it is one of the nine listed scopes, its
`scopeName` is `source.arktype.injection.ts`, and its `path` is
`injected.tmLanguage.json`. -/
theorem grammar_injection_exact :
    arkdarkGrammars.length = 1 ∧
    ∃ g, arkdarkGrammars = [g] ∧
      g.injectTo = ["source.ts", "source.tsx", "source.js", "source.jsx", "source.mdx",
        "source.svelte", "source.vue", "source.astro", "text.html.markdown"] ∧
      (∀ s : String, s ∈ g.injectTo ↔
        s ∈ (["source.ts", "source.tsx", "source.js", "source.jsx", "source.mdx",
          "source.svelte", "source.vue", "source.astro", "text.html.markdown"] : List String)) ∧
      g.scopeName = "source.arktype.injection.ts" ∧
      g.path = "injected.tmLanguage.json" :=
  ⟨rfl,
   { injectTo := ["source.ts", "source.tsx", "source.js", "source.jsx", "source.mdx",
       "source.svelte", "source.vue", "source.astro", "text.html.markdown"]
     scopeName := "source.arktype.injection.ts"
     path := "injected.tmLanguage.json" },
   rfl, rfl, fun _ => Iff.rfl, rfl, rfl⟩

/-- C2: the publish workflow is triggered by exactly two events, a push
to branch `main` (with no tag filter) and manual `workflow_dispatch`. -/
theorem publish_triggers_exact :
    publishWorkflow.triggers = [Trigger.push ["main"] [], Trigger.workflowDispatch] ∧
    (∀ t : Trigger, t ∈ publishWorkflow.triggers ↔
      (t = Trigger.push ["main"] [] ∨ t = Trigger.workflowDispatch)) := by
  refine ⟨rfl, fun t => ?_⟩
  simp [publishWorkflow, List.mem_cons]

/-- C3 counterexample: the Build docs step also sets the environment
variable `NEXT_PUBLIC_POSTHOG_KEY`, which is not among the four names
the claim allows, so not every environment variable set in the
workflow's job steps is one of the four. -/
theorem publish_env_claim_false :
    ({ var := "NEXT_PUBLIC_POSTHOG_KEY",
       value := EnvValue.literal "phc_vKr7tmA1TyRlKm9zm5TWVmrTWAybJ2fCk66FtZG49Om" } : EnvBinding)
      ∈ Workflow.allEnvBindings publishWorkflow ∧
    "NEXT_PUBLIC_POSTHOG_KEY" ∉
      (["ORAMA_PRIVATE_API_KEY", "GITHUB_TOKEN", "NPM_TOKEN", "NODE_AUTH_TOKEN"] : List String) ∧
    ¬ (∀ b ∈ Workflow.allEnvBindings publishWorkflow,
        b.var ∈ (["ORAMA_PRIVATE_API_KEY", "GITHUB_TOKEN", "NPM_TOKEN",
          "NODE_AUTH_TOKEN"] : List String)) := by
  decide

/-- C3 amended: the secrets the workflow references are exactly
`ORAMA_PRIVATE_API_KEY`, `GITHUB_TOKEN` and `NPM_TOKEN`; the
environment variables bound to secrets are exactly those three plus
`NODE_AUTH_TOKEN`; `NODE_AUTH_TOKEN` and `NPM_TOKEN` are bound to the
same secret (`NPM_TOKEN`); the only other variables set are the two
literal PostHog values of the Build docs step. -/
theorem publish_secrets_amended :
    (Workflow.secretsReferenced publishWorkflow).dedup =
      ["ORAMA_PRIVATE_API_KEY", "GITHUB_TOKEN", "NPM_TOKEN"] ∧
    (Workflow.secretEnvVars publishWorkflow).dedup =
      ["ORAMA_PRIVATE_API_KEY", "GITHUB_TOKEN", "NPM_TOKEN", "NODE_AUTH_TOKEN"] ∧
    ((Workflow.allEnvBindings publishWorkflow).find? fun b => b.var == "NODE_AUTH_TOKEN") =
      some { var := "NODE_AUTH_TOKEN", value := EnvValue.secret "NPM_TOKEN" } ∧
    ((Workflow.allEnvBindings publishWorkflow).find? fun b => b.var == "NPM_TOKEN") =
      some { var := "NPM_TOKEN", value := EnvValue.secret "NPM_TOKEN" } ∧
    Workflow.envVarsSet publishWorkflow =
      ["NEXT_PUBLIC_POSTHOG_KEY", "NEXT_PUBLIC_POSTHOG_HOST", "ORAMA_PRIVATE_API_KEY",
       "GITHUB_TOKEN", "NPM_TOKEN", "NODE_AUTH_TOKEN"] := by
  decide

/-- C4: `deploy` declares `update-gh-pages` as its only dependency and
the other two jobs declare none; in every valid start order `deploy`
comes after `update-gh-pages`, while `release` can start at any
position relative to both. -/
theorem deploy_needs_update_gh_pages :
    needsOf "deploy" = ["update-gh-pages"] ∧
    needsOf "release" = [] ∧
    needsOf "update-gh-pages" = [] ∧
    (∀ pre post : List String,
      validOrder (pre ++ "deploy" :: post) = true → "update-gh-pages" ∈ pre) ∧
    validOrder ["update-gh-pages", "deploy", "release"] = true ∧
    validOrder ["update-gh-pages", "release", "deploy"] = true ∧
    validOrder ["release", "update-gh-pages", "deploy"] = true := by
  refine ⟨by decide, by decide, by decide, ?_, by decide, by decide, by decide⟩
  intro pre post h
  rcases validFrom_deploy pre [] post h with hd | hp
  · exact absurd hd (List.not_mem_nil "update-gh-pages")
  · exact hp

/-- C4 witness: the theorem applied to the concrete valid order
`["update-gh-pages", "deploy", "release"]`. -/
theorem deploy_needs_update_gh_pages_witness :
    validOrder (["update-gh-pages"] ++ "deploy" :: ["release"]) = true ∧
    "update-gh-pages" ∈ (["update-gh-pages"] : List String) :=
  ⟨by decide,
   deploy_needs_update_gh_pages.2.2.2.1 ["update-gh-pages"] ["release"] (by decide)⟩

/-- C5: the manifest ships exactly four ordered `errorLens.replace`
rules and depends on the ErrorLens extension; the fourth rule is the
matcher `[^]*\n([^\n]*)$` with message `$1`, and on every input
containing a newline that regex matches with the capturing group (the
value of `$1`) equal to the last line of the input — the newline-free
suffix following the final newline — while on newline-free input it
does not match. -/
theorem errorlens_replace_rules :
    errorLensReplace.length = 4 ∧
    extensionDependencies = ["usernamehw.errorlens"] ∧
    errorLensReplace.map ReplaceRule.message = ["$1", "$1", "$2", "$1"] ∧
    errorLensReplace.get? 3 = some { matcher := "[^]*\n([^\n]*)$", message := "$1" } ∧
    (∀ l : List Char, '\n' ∈ l →
      ∃ g pre, rule4Capture l = some g ∧ l = pre ++ '\n' :: g ∧ '\n' ∉ g) ∧
    (∀ l : List Char, '\n' ∉ l → rule4Capture l = none) :=
  ⟨rfl, rfl, rfl, rfl, rule4Capture_lastLine, rule4Capture_eq_none⟩

/-- C5 witness: the theorem applied to the concrete messages
`"first line\nmiddle\nlast line"` (capture: `"last line"`) and
`"no newline"` (no match). -/
theorem errorlens_replace_rules_witness :
    ('\n' ∈ ("first line\nmiddle\nlast line").data ∧
      ∃ g pre, rule4Capture ("first line\nmiddle\nlast line").data = some g ∧
        ("first line\nmiddle\nlast line").data = pre ++ '\n' :: g ∧ '\n' ∉ g) ∧
    ('\n' ∉ ("no newline").data ∧ rule4Capture ("no newline").data = none) :=
  ⟨⟨by decide, errorlens_replace_rules.2.2.2.2.1 ("first line\nmiddle\nlast line").data (by decide)⟩,
   ⟨by decide, errorlens_replace_rules.2.2.2.2.2 ("no newline").data (by decide)⟩⟩

/-- C6: each of `onUndeclaredKey`, `jitless`, `onFail` and `clone` has
its own uniquely-titled section of the Configuration doc with a
`configure` usage example passing that key, and the doc lists exactly
the behaviors `ignore` (the default), `delete` and `reject` for
`onUndeclaredKey`. -/
theorem config_doc_options :
    hasOwnConfigureSection "onUndeclaredKey" "onUndeclaredKey" = true ∧
    hasOwnConfigureSection "jitless" "jitless" = true ∧
    hasOwnConfigureSection "onFail" "onFail" = true ∧
    hasOwnConfigureSection "clone" "Clone" = true ∧
    sectionCount "onUndeclaredKey" = 1 ∧
    sectionCount "jitless" = 1 ∧
    sectionCount "onFail" = 1 ∧
    sectionCount "Clone" = 1 ∧
    onUndeclaredKeyBehaviors.map UndeclaredKeyBehavior.value = ["ignore", "delete", "reject"] ∧
    (onUndeclaredKeyBehaviors.filter fun b => b.isDefault).map UndeclaredKeyBehavior.value
      = ["ignore"] := by
  decide

/-- C7 counterexample: the excerpt also contains MDX documentation
content (the Scopes / Match docs), which is neither the extension
manifest nor the CI workflow, so the claim's enumeration of the
non-executable files is incomplete. -/
theorem source_inventory_claim_false :
    ({ path := "ark/docs MDX content (Scopes / Match)",
       kind := ArtifactKind.documentationContent } : SourceArtifact) ∈ sourceArtifacts ∧
    ¬ (∀ a ∈ sourceArtifacts, a.path ≠ "ark/docs/app/(home)/layout.tsx" →
        a.kind = ArtifactKind.declarativeManifest ∨
        a.kind = ArtifactKind.declarativeWorkflow) := by
  decide

/-- C7 amended: the only artifact containing executable code is the
layout component, whose entire behavior is a single record
construction (no algorithm, no state, no protocol); the remaining
artifacts are the declarative CI workflow, the declarative extension
manifest, and declarative documentation content. -/
theorem source_inventory_amended :
    ((sourceArtifacts.filter fun a => a.kind == ArtifactKind.executableModule).map
        SourceArtifact.path) = ["ark/docs/app/(home)/layout.tsx"] ∧
    ((sourceArtifacts.filter fun a => !(a.kind == ArtifactKind.executableModule)).map
        fun a => (a.path, a.kind)) =
      [(".github/workflows/publish.yml", ArtifactKind.declarativeWorkflow),
       ("ark/extension/package.json", ArtifactKind.declarativeManifest),
       ("ark/docs MDX content (Scopes / Match)", ArtifactKind.documentationContent)] ∧
    (∀ {χ ρ σ κ : Type} (b : BaseOptions χ ρ σ) (ch : κ),
      homeLayoutDefault b ch =
        { nav := { children := Elem.floatYourBoat "header", rest := b.nav.rest }
          rest := b.rest
          children := ch }) :=
  ⟨by decide, by decide, fun _ _ => rfl⟩

/-- C8: `packageExtension` writes `arkdark.vsix` (the value of `--out`),
both publish scripts take that same file (the value of `-i`), and
`publishExtension` runs the three scripts in the order package, vsce
publish, ovsx publish. -/
theorem extension_scripts_vsix :
    arkdarkScripts.lookup "packageExtension" = some "vsce package --out arkdark.vsix" ∧
    arkdarkScripts.lookup "publishVsce" = some "vsce publish -i arkdark.vsix" ∧
    arkdarkScripts.lookup "publishOvsx" = some "ovsx publish -i arkdark.vsix" ∧
    arkdarkScripts.lookup "publishExtension" =
      some "pnpm packageExtension && pnpm publishVsce && pnpm publishOvsx" ∧
    argAfter "--out" (words "vsce package --out arkdark.vsix") = some "arkdark.vsix" ∧
    argAfter "-i" (words "vsce publish -i arkdark.vsix") = some "arkdark.vsix" ∧
    argAfter "-i" (words "ovsx publish -i arkdark.vsix") = some "arkdark.vsix" ∧
    commandSeq "pnpm packageExtension && pnpm publishVsce && pnpm publishOvsx" =
      [["pnpm", "packageExtension"], ["pnpm", "publishVsce"], ["pnpm", "publishOvsx"]] := by
  decide

/-- C9: the workflow grants `write-all` at the workflow level, it has
exactly the three jobs `update-gh-pages`, `deploy` and `release`, and
no job declares its own permissions block, so each job's effective
permissions are `write-all`. -/
theorem workflow_permissions_writeAll :
    publishWorkflow.permissions = some PermissionLevel.writeAll ∧
    publishWorkflow.jobs.map Job.jobName = ["update-gh-pages", "deploy", "release"] ∧
    (publishWorkflow.jobs.all fun j =>
      decide (j.permissions = none) &&
      decide (Job.effectivePermissions publishWorkflow j = some PermissionLevel.writeAll))
      = true := by
  decide

/-- C10: for every `children` value and every `baseOptions`, the home
layout's default export passes `children` through unchanged, keeps all
non-`nav` fields of `baseOptions`, keeps all non-`children` fields of
`baseOptions.nav`, and replaces only `nav.children` with a
`FloatYourBoat` element of kind `header`. -/
theorem home_layout_frame {χ ρ σ κ : Type} (b : BaseOptions χ ρ σ) (ch : κ) :
    (homeLayoutDefault b ch).children = ch ∧
    (homeLayoutDefault b ch).rest = b.rest ∧
    (homeLayoutDefault b ch).nav.rest = b.nav.rest ∧
    (homeLayoutDefault b ch).nav.children = Elem.floatYourBoat "header" :=
  ⟨rfl, rfl, rfl, rfl⟩

end Ark
